import Mathlib

/-!
Shallow embedding of `src/TheChernoOpenGL/Application.cpp` and proofs about
the shader-source splitter, the compile/link pipeline, the diagnostic call
wrapper and the initialization sequence of `main`.

Strings are modelled as `List Char`; a file is the list of lines produced by
`getline` (so no line contains the newline character).  The C++ test
`line.find(tok) != std::string::npos` is substring containment, modelled by
`tok <:+: line` ( `List.IsInfix` ).
-/

namespace Cherno

/-- The token `"#shader"` searched for by `ParseShader` (Application.cpp line 46). -/
def shaderTok : List Char := "#shader".toList

/-- The token `"vertex"` (Application.cpp line 47). -/
def vertexTok : List Char := "vertex".toList

/-- The token `"fragment"` (Application.cpp line 49). -/
def fragmentTok : List Char := "fragment".toList

/-- The `enum class ShaderType` of `ParseShader` (Application.cpp lines 36-41). -/
inductive ShaderType where
  | NONE
  | VERTEX
  | FRAGMENT
deriving DecidableEq, Repr

/-- The numeric value of each enumerator: NONE = -1, VERTEX = 0, FRAGMENT = 1.
This is the value used by the cast `(int)type` at Application.cpp line 53. -/
def ShaderType.toIdx : ShaderType → Int
  | ShaderType.NONE => -1
  | ShaderType.VERTEX => 0
  | ShaderType.FRAGMENT => 1

/-- The `struct ShaderProgramSource` (Application.cpp lines 28-31). -/
structure ShaderProgramSource where
  VertexSource : List Char
  FragmentSource : List Char
deriving DecidableEq, Repr

/-- `std::endl` appends a newline character (Application.cpp line 53). -/
def endl : List Char := ['\n']

/-- The loop state of `ParseShader`: the current `ShaderType` and the two
stringstreams `ss[0]`, `ss[1]`.  The C++ statement `ss[(int)type] << line`
with `type == ShaderType::NONE` evaluates `ss[-1]`, an index outside the
two-element array `ss[2]` (undefined behavior in C++).  The model records
every such out-of-bounds store, with the index used, in `oobWrites`; since
the location `ss[-1]` is neither `ss[0]` nor `ss[1]`, the two real buffers
are left unchanged by it. -/
structure ParseState where
  type : ShaderType
  ss0 : List Char
  ss1 : List Char
  oobWrites : List (Int × List Char)
deriving DecidableEq, Repr

/-- One iteration of the `while (getline(stream, line))` loop body of
`ParseShader` (Application.cpp lines 45-55), transcribed branch by branch. -/
def processLine (st : ParseState) (line : List Char) : ParseState :=
  if shaderTok <:+: line then
    if vertexTok <:+: line then { st with type := ShaderType.VERTEX }
    else if fragmentTok <:+: line then { st with type := ShaderType.FRAGMENT }
    else st
  else
    if st.type.toIdx = 0 then { st with ss0 := st.ss0 ++ line ++ endl }
    else if st.type.toIdx = 1 then { st with ss1 := st.ss1 ++ line ++ endl }
    else { st with oobWrites := st.oobWrites ++ [(st.type.toIdx, line)] }

/-- Initial loop state: `type = ShaderType::NONE`, both stringstreams empty
(Application.cpp lines 42-44). -/
def initState : ParseState := ⟨ShaderType.NONE, [], [], []⟩

/-- The final loop state of `ParseShader` on a file whose stream yields
`lines`. -/
def parseRun (lines : List (List Char)) : ParseState :=
  lines.foldl processLine initState

/-- `ParseShader` (Application.cpp lines 33-58) as a function of the list of
lines the input stream yields (a missing file yields no lines).  Returns
`{ss[0].str(), ss[1].str()}`. -/
def ParseShader (lines : List (List Char)) : ShaderProgramSource :=
  ⟨(parseRun lines).ss0, (parseRun lines).ss1⟩

/-- The bounds of the two-element array `std::stringstream ss[2]`
(Application.cpp line 44): valid indices are 0 and 1. -/
def inBounds (i : Int) : Prop := 0 ≤ i ∧ i < 2

instance (i : Int) : Decidable (inBounds i) := by
  unfold inBounds; infer_instance

/-- A line `ParseShader` treats as a directive: it contains `"#shader"`. -/
def isMarkerLine (l : List Char) : Bool := decide (shaderTok <:+: l)

/-- A marker line that selects the vertex section (contains `"#shader"` and
`"vertex"`; the `"vertex"` test is made first at Application.cpp line 47). -/
def isVertexMarker (l : List Char) : Bool :=
  isMarkerLine l && decide (vertexTok <:+: l)

/-- A marker line that selects the fragment section (contains `"#shader"`
and `"fragment"` but not `"vertex"`, since the `"vertex"` test wins at
Application.cpp line 47). -/
def isFragmentMarker (l : List Char) : Bool :=
  isMarkerLine l && !(decide (vertexTok <:+: l)) && decide (fragmentTok <:+: l)

/-- Formalises the file class quantified over by the spec sentence `For all
well-formed input files with exactly one vertex marker and one fragment
marker`: exactly one vertex marker line, exactly one fragment marker line,
and every marker line is one of the two. -/
def exactlyOneEachMarker (lines : List (List Char)) : Bool :=
  (lines.countP isVertexMarker == 1) && (lines.countP isFragmentMarker == 1) &&
    lines.all (fun l => !(isMarkerLine l) || isVertexMarker l || isFragmentMarker l)

/-- The text a list of content lines contributes to a stringstream: each
line followed by the newline of `std::endl`. -/
def emit (c : List (List Char)) : List Char :=
  (c.map (fun l => l ++ endl)).flatten

end Cherno

namespace Cherno

theorem processLine_marker_vertex (st : ParseState) (l : List Char)
    (h : isVertexMarker l = true) :
    processLine st l = { st with type := ShaderType.VERTEX } := by
  simp only [isVertexMarker, isMarkerLine, Bool.and_eq_true, decide_eq_true_eq] at h
  simp [processLine, h.1, h.2]

theorem processLine_marker_fragment (st : ParseState) (l : List Char)
    (h : isFragmentMarker l = true) :
    processLine st l = { st with type := ShaderType.FRAGMENT } := by
  simp only [isFragmentMarker, isMarkerLine, Bool.and_eq_true, Bool.not_eq_true',
    decide_eq_true_eq, decide_eq_false_iff_not] at h
  simp [processLine, h.1.1, h.1.2, h.2]

theorem processLine_content_vertex (st : ParseState) (l : List Char)
    (hl : ¬ shaderTok <:+: l) (ht : st.type = ShaderType.VERTEX) :
    processLine st l = { st with ss0 := st.ss0 ++ l ++ endl } := by
  simp [processLine, hl, ht, ShaderType.toIdx]

theorem processLine_content_fragment (st : ParseState) (l : List Char)
    (hl : ¬ shaderTok <:+: l) (ht : st.type = ShaderType.FRAGMENT) :
    processLine st l = { st with ss1 := st.ss1 ++ l ++ endl } := by
  simp [processLine, hl, ht, ShaderType.toIdx]

theorem foldl_content_vertex (c : List (List Char)) (hc : ∀ l ∈ c, ¬ shaderTok <:+: l)
    (s0 s1 : List Char) (w : List (Int × List Char)) :
    c.foldl processLine ⟨ShaderType.VERTEX, s0, s1, w⟩ =
      ⟨ShaderType.VERTEX, s0 ++ emit c, s1, w⟩ := by
  induction c generalizing s0 with
  | nil => simp [emit]
  | cons l c ih =>
    have hl : ¬ shaderTok <:+: l := hc l (List.mem_cons_self l c)
    have hr : ∀ x ∈ c, ¬ shaderTok <:+: x := fun x hx => hc x (List.mem_cons_of_mem l hx)
    rw [List.foldl_cons,
      processLine_content_vertex ⟨ShaderType.VERTEX, s0, s1, w⟩ l hl rfl]
    rw [show ({ (⟨ShaderType.VERTEX, s0, s1, w⟩ : ParseState) with
        ss0 := s0 ++ l ++ endl } : ParseState) = ⟨ShaderType.VERTEX, s0 ++ l ++ endl, s1, w⟩
      from rfl]
    rw [ih hr]
    simp [emit, List.append_assoc]

theorem foldl_content_fragment (c : List (List Char)) (hc : ∀ l ∈ c, ¬ shaderTok <:+: l)
    (s0 s1 : List Char) (w : List (Int × List Char)) :
    c.foldl processLine ⟨ShaderType.FRAGMENT, s0, s1, w⟩ =
      ⟨ShaderType.FRAGMENT, s0, s1 ++ emit c, w⟩ := by
  induction c generalizing s1 with
  | nil => simp [emit]
  | cons l c ih =>
    have hl : ¬ shaderTok <:+: l := hc l (List.mem_cons_self l c)
    have hr : ∀ x ∈ c, ¬ shaderTok <:+: x := fun x hx => hc x (List.mem_cons_of_mem l hx)
    rw [List.foldl_cons,
      processLine_content_fragment ⟨ShaderType.FRAGMENT, s0, s1, w⟩ l hl rfl]
    rw [show ({ (⟨ShaderType.FRAGMENT, s0, s1, w⟩ : ParseState) with
        ss1 := s1 ++ l ++ endl } : ParseState) = ⟨ShaderType.FRAGMENT, s0, s1 ++ l ++ endl, w⟩
      from rfl]
    rw [ih hr]
    simp [emit, List.append_assoc]

end Cherno

namespace Cherno

theorem infix_append_cases {α : Type} {t x y : List α} (h : t <:+: x ++ y) :
    t <:+: x ∨ t <:+: y ∨
      ∃ t1 t2, t = t1 ++ t2 ∧ t1 ≠ [] ∧ t2 ≠ [] ∧ t1 <:+ x ∧ t2 <+: y := by
  obtain ⟨s, u, hsu⟩ := h
  rw [List.append_assoc] at hsu
  rcases List.append_eq_append_iff.mp hsu with ⟨a, hxa, htu⟩ | ⟨c, _, hyc⟩
  · rcases List.append_eq_append_iff.mp htu with ⟨b, hab, _⟩ | ⟨d, htd, hyd⟩
    · exact Or.inl ⟨s, b, by rw [hxa, hab, List.append_assoc]⟩
    · rcases eq_or_ne a [] with rfl | hane
      · refine Or.inr (Or.inl ⟨[], u, ?_⟩)
        simp only [List.nil_append] at htd
        simp [← htd, hyd]
      · rcases eq_or_ne d [] with rfl | hdne
        · refine Or.inl ⟨s, [], ?_⟩
          rw [List.append_nil] at htd
          rw [htd, ← hxa, List.append_nil]
        · exact Or.inr (Or.inr ⟨a, d, htd, hane, hdne, ⟨s, hxa.symm⟩, ⟨u, hyd.symm⟩⟩)
  · exact Or.inr (Or.inl ⟨c, u, by rw [hyc, List.append_assoc]⟩)

theorem suffix_concat_mem {α : Type} {t1 l : List α} {a : α}
    (h : t1 <:+ l ++ [a]) (hne : t1 ≠ []) : a ∈ t1 := by
  obtain ⟨p, hp⟩ := h
  have h1 : (p ++ t1).getLast? = some a := by rw [hp]; exact List.getLast?_concat l
  rw [List.getLast?_append] at h1
  have h2 : t1.getLast? = some a := by
    cases hl : t1.getLast? with
    | none => rw [List.getLast?_eq_none_iff] at hl; exact absurd hl hne
    | some b => rw [hl] at h1; simpa [Option.or] using h1
  exact List.mem_of_getLast?_eq_some h2

theorem not_infix_chunk {t l : List Char} (hnl : '\n' ∉ t) (hne : t ≠ [])
    (hl : ¬ t <:+: l) : ¬ t <:+: l ++ endl := by
  intro h
  rcases infix_append_cases h with h1 | h2 | ⟨t1, t2, ht, h1ne, h2ne, _, hp⟩
  · exact hl h1
  · rcases List.sublist_singleton.mp (by simpa [endl] using h2.sublist) with rfl | rfl
    · exact hne rfl
    · exact hnl (by simp)
  · rcases List.sublist_singleton.mp (by simpa [endl] using hp.sublist) with rfl | rfl
    · exact h2ne rfl
    · exact hnl (by rw [ht]; simp)

theorem not_infix_emit {t : List Char} (hne : t ≠ []) (hnl : '\n' ∉ t) :
    ∀ {c : List (List Char)}, (∀ l ∈ c, ¬ t <:+: l) → ¬ t <:+: emit c := by
  intro c
  induction c with
  | nil =>
    intro _ h
    have hs := h.sublist
    simp only [emit, List.map_nil, List.flatten_nil, List.sublist_nil] at hs
    exact hne hs
  | cons l c ih =>
    intro hc h
    have hem : emit (l :: c) = (l ++ endl) ++ emit c := by
      simp [emit]
    rw [hem] at h
    rcases infix_append_cases h with h1 | h2 | ⟨t1, t2, ht, h1ne, _, hs, _⟩
    · exact not_infix_chunk hnl hne (hc l (List.mem_cons_self l c)) h1
    · exact ih (fun x hx => hc x (List.mem_cons_of_mem l hx)) h2
    · have hmem : '\n' ∈ t1 := suffix_concat_mem (by simpa [endl] using hs) h1ne
      exact hnl (by rw [ht]; exact List.mem_append_left t2 hmem)

theorem emit_ne_nil {c : List (List Char)} (h : c ≠ []) : emit c ≠ [] := by
  cases c with
  | nil => exact absurd rfl h
  | cons l c => simp [emit, endl]

theorem emit_append (a b : List (List Char)) : emit (a ++ b) = emit a ++ emit b := by
  simp [emit]

end Cherno

namespace Cherno

/-- Claim C1 (code bug): on the one-line file `hello` with zero marker lines,
both returned sources are empty, but the discard path is NOT well-defined as
claimed: the store `ss[(int)type] << line` executes with index `(int)NONE = -1`,
which is outside the bounds of the two-element array `ss[2]` (undefined
behavior in C++).  The model records exactly that out-of-bounds store. -/
theorem c1_none_state_oob_write :
    ParseShader ["hello".toList] = ⟨[], []⟩ ∧
    (parseRun ["hello".toList]).oobWrites = [((-1 : Int), "hello".toList)] ∧
    ¬ inBounds (-1) := by
  decide

/-- Claim C4 counterexample: with the active section VERTEX, the line
`x #shader fragment` has the marker token only at a non-initial position,
yet it DOES switch the section (to FRAGMENT) and is NOT appended to any
buffer, contradicting the claim as stated. -/
theorem c4_counterexample :
    (processLine ⟨ShaderType.VERTEX, [], [], []⟩ ("x #shader fragment".toList)).type
        = ShaderType.FRAGMENT ∧
    (processLine ⟨ShaderType.VERTEX, [], [], []⟩ ("x #shader fragment".toList)).ss0 = [] ∧
    (processLine ⟨ShaderType.VERTEX, [], [], []⟩ ("x #shader fragment".toList)).ss1 = [] := by
  decide

/-- Claim C4 (amended): a line is treated as a directive if and only if it
contains the marker token `#shader` at ANY position (the code uses
`line.find("#shader") != npos`, not a prefix test).  A directive line is
never appended to a buffer and switches the section to VERTEX when it
contains `vertex`, else to FRAGMENT when it contains `fragment`, else leaves
the section unchanged.  A line without the marker token never switches the
section. -/
theorem c4_amended_contains_semantics (st : ParseState) (line : List Char) :
    (shaderTok <:+: line →
      (processLine st line).ss0 = st.ss0 ∧ (processLine st line).ss1 = st.ss1 ∧
      (processLine st line).type =
        (if vertexTok <:+: line then ShaderType.VERTEX
         else if fragmentTok <:+: line then ShaderType.FRAGMENT else st.type)) ∧
    (¬ shaderTok <:+: line →
      (processLine st line).type = st.type ∧
      (st.type = ShaderType.VERTEX →
        (processLine st line).ss0 = st.ss0 ++ line ++ endl) ∧
      (st.type = ShaderType.FRAGMENT →
        (processLine st line).ss1 = st.ss1 ++ line ++ endl)) := by
  constructor
  · intro h
    by_cases hv : vertexTok <:+: line
    · simp [processLine, h, hv]
    · by_cases hf : fragmentTok <:+: line
      · simp [processLine, h, hv, hf]
      · simp [processLine, h, hv, hf]
  · intro h
    refine ⟨?_, ?_, ?_⟩
    · show (processLine st line).type = st.type
      simp only [processLine, if_neg h]
      split_ifs <;> rfl
    · intro hv
      rw [processLine_content_vertex st line h hv]
    · intro hf
      rw [processLine_content_fragment st line h hf]

/-- Witness for the amended claim C4 at a concrete input: the plain marker
line `#shader vertex` switches the state from NONE to VERTEX and appends
nothing. -/
theorem c4_witness :
    (processLine ⟨ShaderType.NONE, [], [], []⟩ ("#shader vertex".toList)).type
      = ShaderType.VERTEX ∧
    (processLine ⟨ShaderType.NONE, [], [], []⟩ ("#shader vertex".toList)).ss0 = [] := by
  have h := (c4_amended_contains_semantics ⟨ShaderType.NONE, [], [], []⟩
    ("#shader vertex".toList)).1 (by decide)
  refine ⟨?_, h.1⟩
  rw [h.2.2]
  decide

/-- Claim C8: `ParseShader` raises no error itself; a missing file makes the
stream yield no lines, and on no lines both returned sources are the empty
string.  (Totality of the model is inherent: `ParseShader` is a total
function.) -/
theorem c8_no_lines_empty_sources : ParseShader [] = ⟨[], []⟩ := rfl

/-- Claim C10: a line containing `#shader` but neither `vertex` nor
`fragment` leaves the state completely unchanged: the section is kept and
the line is appended to neither buffer. -/
theorem c10_unrecognized_directive_dropped (st : ParseState) (line : List Char)
    (h1 : shaderTok <:+: line) (h2 : ¬ vertexTok <:+: line)
    (h3 : ¬ fragmentTok <:+: line) :
    processLine st line = st := by
  simp [processLine, h1, h2, h3]

/-- Witness for claim C10 at a concrete input: the line `#shader geometry`
is silently dropped. -/
theorem c10_witness :
    processLine ⟨ShaderType.VERTEX, "a".toList, [], []⟩ ("#shader geometry".toList)
      = ⟨ShaderType.VERTEX, "a".toList, [], []⟩ :=
  c10_unrecognized_directive_dropped _ _ (by decide) (by decide) (by decide)

end Cherno

namespace Cherno

/-- Claim C7: section assignment follows the marker keyword, not the order of
appearance.  For a file where a fragment marker precedes a vertex marker,
the content lines after the fragment marker still land in `FragmentSource`
and the content lines after the vertex marker still land in
`VertexSource`. -/
theorem c7_section_by_keyword_not_order (fm vm : List Char) (cf cv : List (List Char))
    (hfm : isFragmentMarker fm = true) (hvm : isVertexMarker vm = true)
    (hcf : ∀ l ∈ cf, ¬ shaderTok <:+: l) (hcv : ∀ l ∈ cv, ¬ shaderTok <:+: l) :
    ParseShader ([fm] ++ cf ++ [vm] ++ cv) = ⟨emit cv, emit cf⟩ := by
  have h1 : [fm] ++ cf ++ [vm] ++ cv = fm :: (cf ++ ([vm] ++ cv)) := by simp
  unfold ParseShader parseRun
  rw [h1, List.foldl_cons, processLine_marker_fragment _ _ hfm]
  rw [show ({ initState with type := ShaderType.FRAGMENT } : ParseState)
      = ⟨ShaderType.FRAGMENT, [], [], []⟩ from rfl]
  rw [List.foldl_append, foldl_content_fragment cf hcf [] [] []]
  rw [show ([vm] ++ cv : List (List Char)) = vm :: cv from rfl]
  rw [List.foldl_cons, processLine_marker_vertex _ _ hvm]
  rw [show ({ (⟨ShaderType.FRAGMENT, [], [] ++ emit cf, []⟩ : ParseState) with
      type := ShaderType.VERTEX } : ParseState)
      = ⟨ShaderType.VERTEX, [], [] ++ emit cf, []⟩ from rfl]
  rw [foldl_content_vertex cv hcv [] ([] ++ emit cf) []]
  simp

/-- Witness for claim C7 at a concrete input: in a file whose fragment
marker comes first, the line after the fragment marker ends up in
`FragmentSource` and the line after the vertex marker in `VertexSource`. -/
theorem c7_witness :
    ParseShader ["#shader fragment".toList, "float f;".toList,
      "#shader vertex".toList, "float v;".toList]
      = ⟨"float v;".toList ++ endl, "float f;".toList ++ endl⟩ := by
  have h := c7_section_by_keyword_not_order ("#shader fragment".toList)
    ("#shader vertex".toList) [("float f;".toList)] [("float v;".toList)]
    (by decide) (by decide) (by decide) (by decide)
  simpa [emit] using h

/-- Claim C5 counterexample: the two-line file consisting of exactly one
vertex marker line and exactly one fragment marker line (and nothing else)
is in the quantified class, yet both returned sources are empty, refuting
the claimed non-emptiness. -/
theorem c5_counterexample :
    exactlyOneEachMarker ["#shader vertex".toList, "#shader fragment".toList] = true ∧
    (ParseShader ["#shader vertex".toList, "#shader fragment".toList]).VertexSource = [] ∧
    (ParseShader ["#shader vertex".toList, "#shader fragment".toList]).FragmentSource
      = [] := by
  decide

end Cherno

namespace Cherno

/-- The `GL_VERTEX_SHADER` stage enumerator (0x8B31). -/
def GL_VERTEX_SHADER : Nat := 35633

/-- The `GL_FRAGMENT_SHADER` stage enumerator (0x8B30). -/
def GL_FRAGMENT_SHADER : Nat := 35632

/-- The graphics-API calls issued by the compile/link pipeline, recorded as
a trace.  `getLinkStatus` models `glGetProgramiv(program, GL_LINK_STATUS)`,
which the code never issues. -/
inductive GLOp where
  | createProgram
  | createShader (type : Nat)
  | shaderSource (id : Nat)
  | compileShader (id : Nat)
  | getCompileStatus (id : Nat)
  | getInfoLogLength (id : Nat)
  | getShaderInfoLog (id : Nat)
  | deleteShader (id : Nat)
  | attachShader (program : Nat) (id : Nat)
  | linkProgram (program : Nat)
  | validateProgram (program : Nat)
  | getLinkStatus (program : Nat)
deriving DecidableEq, Repr

/-- The driver state the pipeline observes, as an oracle: which handle
`glCreateShader` returns for a stage, whether `GL_COMPILE_STATUS` comes back
true for a stage and source, the diagnostic text `glGetShaderInfoLog`
retrieves, and the handle `glCreateProgram` returns. -/
structure GLEnv where
  createShaderId : Nat → Nat
  compileOk : Nat → List Char → Bool
  infoLog : Nat → List Char → List Char
  programId : Nat

/-- Result of `CompileShader`: the returned handle, the trace of API calls
issued, and the lines written to `std::cerr`. -/
structure CompileOut where
  ret : Nat
  ops : List GLOp
  cerrLines : List (List Char)
deriving DecidableEq, Repr

/-- The stage tag printed on compile failure:
`(type == GL_VERTEX_SHADER ? "vertex" : "fragment")` (Application.cpp
line 75). -/
def stageName (type : Nat) : List Char :=
  if type = GL_VERTEX_SHADER then "vertex".toList else "fragment".toList

/-- The first line `CompileShader` writes to `std::cerr` on failure
(Application.cpp line 75). -/
def failMsg (type : Nat) : List Char :=
  "Failed to compile ".toList ++ stageName type

/-- `CompileShader` (Application.cpp lines 60-83): create the shader object,
feed it the source, compile, query `GL_COMPILE_STATUS`; on failure retrieve
and print the info log together with the stage name, delete the shader
object and return 0; on success return the handle. -/
def CompileShader (env : GLEnv) (type : Nat) (source : List Char) : CompileOut :=
  let id := env.createShaderId type
  let pre : List GLOp := [GLOp.createShader type, GLOp.shaderSource id,
    GLOp.compileShader id, GLOp.getCompileStatus id]
  if env.compileOk type source then
    { ret := id, ops := pre, cerrLines := [] }
  else
    { ret := 0,
      ops := pre ++ [GLOp.getInfoLogLength id, GLOp.getShaderInfoLog id,
        GLOp.deleteShader id],
      cerrLines := [failMsg type, env.infoLog type source] }

/-- Result of `CreateShader`: the returned program handle, the trace of API
calls issued, and the lines written to `std::cerr`. -/
structure CreateOut where
  ret : Nat
  ops : List GLOp
  cerrLines : List (List Char)
deriving DecidableEq, Repr

/-- `CreateShader` (Application.cpp lines 85-99): create a program, compile
both stages, attach whatever handles came back (no check of the 0
sentinel), link, validate, delete both intermediate handles and return the
program handle.  No link-status query is issued. -/
def CreateShader (env : GLEnv) (vertexShader fragmentShader : List Char) : CreateOut :=
  let program := env.programId
  let vs := CompileShader env GL_VERTEX_SHADER vertexShader
  let fs := CompileShader env GL_FRAGMENT_SHADER fragmentShader
  { ret := program,
    ops := GLOp.createProgram :: (vs.ops ++ fs.ops ++
      [GLOp.attachShader program vs.ret, GLOp.attachShader program fs.ret,
       GLOp.linkProgram program, GLOp.validateProgram program,
       GLOp.deleteShader vs.ret, GLOp.deleteShader fs.ret]),
    cerrLines := vs.cerrLines ++ fs.cerrLines }

end Cherno

namespace Cherno

/-- Claim C3: on compile failure `CompileShader` returns the sentinel 0,
deletes the shader object, and writes to `std::cerr` a line containing the
stage name followed by the retrieved info log; on compile success it
returns the handle (nonzero whenever `glCreateShader` produced a valid
handle), deletes nothing, and writes nothing. -/
theorem c3_compile_failure_reported (env : GLEnv) (type : Nat) (source : List Char)
    (hid : env.createShaderId type ≠ 0) :
    (env.compileOk type source = false →
      (CompileShader env type source).ret = 0 ∧
      GLOp.deleteShader (env.createShaderId type) ∈ (CompileShader env type source).ops ∧
      failMsg type ∈ (CompileShader env type source).cerrLines ∧
      stageName type <:+: failMsg type ∧
      env.infoLog type source ∈ (CompileShader env type source).cerrLines) ∧
    (env.compileOk type source = true →
      (CompileShader env type source).ret = env.createShaderId type ∧
      (CompileShader env type source).ret ≠ 0 ∧
      (∀ i, GLOp.deleteShader i ∉ (CompileShader env type source).ops) ∧
      (CompileShader env type source).cerrLines = []) := by
  constructor
  · intro h
    refine ⟨by simp [CompileShader, h], by simp [CompileShader, h],
      by simp [CompileShader, h], ?_, by simp [CompileShader, h]⟩
    exact (List.suffix_append ("Failed to compile ".toList) (stageName type)).isInfix
  · intro h
    refine ⟨by simp [CompileShader, h], ?_, ?_, by simp [CompileShader, h]⟩
    · simpa [CompileShader, h] using hid
    · intro i
      simp [CompileShader, h]

/-- The oracle of a driver on which every compilation fails with a fixed
diagnostic, `glCreateShader` returns handle 7 and `glCreateProgram` returns
handle 3. -/
def envCompileFail : GLEnv :=
  { createShaderId := fun _ => 7,
    compileOk := fun _ _ => false,
    infoLog := fun _ _ => "0:1: syntax error".toList,
    programId := 3 }

/-- Witness for claim C3 at a concrete input: on the always-failing driver
oracle, compiling a vertex source returns 0, deletes shader 7 and prints a
line containing the stage name. -/
theorem c3_witness :
    (CompileShader envCompileFail GL_VERTEX_SHADER "bad".toList).ret = 0 ∧
    GLOp.deleteShader 7 ∈ (CompileShader envCompileFail GL_VERTEX_SHADER "bad".toList).ops ∧
    failMsg GL_VERTEX_SHADER
      ∈ (CompileShader envCompileFail GL_VERTEX_SHADER "bad".toList).cerrLines ∧
    stageName GL_VERTEX_SHADER <:+: failMsg GL_VERTEX_SHADER := by
  have h := (c3_compile_failure_reported envCompileFail GL_VERTEX_SHADER "bad".toList
    (by decide)).1 rfl
  exact ⟨h.1, h.2.1, h.2.2.1, h.2.2.2.1⟩

/-- Claim C2: `CreateShader` attaches whatever both `CompileShader` calls
returned (the sentinel 0 included, proved for every oracle and made
explicit by the failure conjunct), requests link and validate, deletes both
intermediate handles, returns the program handle, and never queries link
status. -/
theorem c2_link_without_checks (env : GLEnv) (vsrc fsrc : List Char) :
    (CreateShader env vsrc fsrc).ret = env.programId ∧
    GLOp.attachShader env.programId (CompileShader env GL_VERTEX_SHADER vsrc).ret
      ∈ (CreateShader env vsrc fsrc).ops ∧
    GLOp.attachShader env.programId (CompileShader env GL_FRAGMENT_SHADER fsrc).ret
      ∈ (CreateShader env vsrc fsrc).ops ∧
    GLOp.linkProgram env.programId ∈ (CreateShader env vsrc fsrc).ops ∧
    GLOp.validateProgram env.programId ∈ (CreateShader env vsrc fsrc).ops ∧
    GLOp.deleteShader (CompileShader env GL_VERTEX_SHADER vsrc).ret
      ∈ (CreateShader env vsrc fsrc).ops ∧
    GLOp.deleteShader (CompileShader env GL_FRAGMENT_SHADER fsrc).ret
      ∈ (CreateShader env vsrc fsrc).ops ∧
    (env.compileOk GL_VERTEX_SHADER vsrc = false →
      GLOp.attachShader env.programId 0 ∈ (CreateShader env vsrc fsrc).ops) ∧
    (∀ p, GLOp.getLinkStatus p ∉ (CreateShader env vsrc fsrc).ops) := by
  refine ⟨rfl, by simp [CreateShader], by simp [CreateShader], by simp [CreateShader],
    by simp [CreateShader], by simp [CreateShader], by simp [CreateShader], ?_, ?_⟩
  · intro h
    have h0 : (CompileShader env GL_VERTEX_SHADER vsrc).ret = 0 := by
      simp [CompileShader, h]
    rw [← h0]
    simp [CreateShader]
  · intro p
    by_cases h1 : env.compileOk GL_VERTEX_SHADER vsrc <;>
      by_cases h2 : env.compileOk GL_FRAGMENT_SHADER fsrc <;>
        simp [CreateShader, CompileShader, h1, h2]

/-- Witness for claim C2 at a concrete input: on the always-failing driver
oracle, `CreateShader` attaches the sentinel handle 0 to program 3, still
returns program 3, and issues no link-status query. -/
theorem c2_witness :
    (CreateShader envCompileFail "v".toList "f".toList).ret = 3 ∧
    GLOp.attachShader 3 0 ∈ (CreateShader envCompileFail "v".toList "f".toList).ops ∧
    GLOp.getLinkStatus 3 ∉ (CreateShader envCompileFail "v".toList "f".toList).ops := by
  have h := c2_link_without_checks envCompileFail "v".toList "f".toList
  exact ⟨h.1, h.2.2.2.2.2.2.2.1 rfl, h.2.2.2.2.2.2.2.2 3⟩

end Cherno

namespace Cherno

/-- `GL_NO_ERROR` is 0; `glGetError` returns it when no error flag is
pending. -/
def GL_NO_ERROR : Nat := 0

/-- `GLClearError` (Application.cpp lines 15-17): `while (glGetError() !=
GL_NO_ERROR);`.  The pending-error queue is a list of flags; each
`glGetError` call pops one flag (an empty queue yields `GL_NO_ERROR`), and
the loop stops at the first `GL_NO_ERROR` result. -/
def GLClearError : List Nat → List Nat
  | [] => []
  | e :: es => if e = GL_NO_ERROR then es else GLClearError es

/-- Result of `GLLogCall`: the returned bool, the remaining error queue and
the diagnostic lines printed. -/
structure LogCallOut where
  ok : Bool
  queue : List Nat
  emitted : List (List Char)
deriving DecidableEq, Repr

/-- The diagnostic line printed by `GLLogCall` (Application.cpp line 21):
error code, then file, then function (the stringified call-site
expression), then line number. -/
def glErrorMsg (error : Nat) (file function : List Char) (line : Nat) : List Char :=
  "[OpenGL Error] (".toList ++ (Nat.repr error).toList ++ ") in file ".toList ++ file
    ++ " on function ".toList ++ function ++ " at line ".toList ++ (Nat.repr line).toList

/-- `GLLogCall` (Application.cpp lines 19-26): one `glGetError` query; on a
nonzero flag, print the diagnostic line and return false from inside the
loop; otherwise return true. -/
def GLLogCall (function file : List Char) (line : Nat) (q : List Nat) : LogCallOut :=
  match q with
  | [] => { ok := true, queue := [], emitted := [] }
  | e :: es =>
    if e = GL_NO_ERROR then { ok := true, queue := es, emitted := [] }
    else { ok := false, queue := es, emitted := [glErrorMsg e file function line] }

/-- Result of one `GLCall(x)` expansion: the remaining error queue, the
diagnostic lines printed, and whether `ASSERT` trapped (`__debugbreak`). -/
structure GLCallOut where
  queue : List Nat
  emitted : List (List Char)
  trapped : Bool
deriving DecidableEq, Repr

/-- The `GLCall(x)` macro (Application.cpp lines 10-13): clear all pending
error flags, execute `x` (modelled by the list of error flags the call
pushes onto the queue), then `ASSERT(GLLogCall(#x, __FILE__, __LINE__))`,
which traps exactly when `GLLogCall` returned false.  No error code is
returned to the caller: the only outputs are the diagnostic text and the
trap. -/
def GLCall (exprStr file : List Char) (line : Nat) (raised : List Nat)
    (q : List Nat) : GLCallOut :=
  let q1 := GLClearError q
  let q2 := q1 ++ raised
  let lg := GLLogCall exprStr file line q2
  { queue := lg.queue, emitted := lg.emitted, trapped := !lg.ok }

/-- `GLClearError` leaves nothing pending: real error flags are nonzero, so
the drain loop only stops once the queue is exhausted. -/
theorem GLClearError_drains (q : List Nat) (hq : ∀ e ∈ q, e ≠ GL_NO_ERROR) :
    GLClearError q = [] := by
  induction q with
  | nil => rfl
  | cons e es ih =>
    have he : e ≠ GL_NO_ERROR := hq e (List.mem_cons_self e es)
    simp only [GLClearError, if_neg he]
    exact ih (fun x hx => hq x (List.mem_cons_of_mem e hx))

/-- Claim C6: `GLCall` first drains every pending error flag (so stale
errors are not misattributed), then runs the call, then queries the flag
once more.  If the call raised no error, nothing is printed and no trap
fires; if it raised an error, the wrapper prints one diagnostic line
containing the literal source expression, the file name and the line
number, and traps.  The wrapper returns no error code either way. -/
theorem c6_glcall_discipline (exprStr file : List Char) (line : Nat)
    (raised pending : List Nat) (hp : ∀ e ∈ pending, e ≠ GL_NO_ERROR)
    (hr : ∀ e ∈ raised, e ≠ GL_NO_ERROR) :
    GLClearError pending = [] ∧
    (raised = [] → GLCall exprStr file line raised pending = ⟨[], [], false⟩) ∧
    (∀ e es, raised = e :: es →
      (GLCall exprStr file line raised pending).trapped = true ∧
      (GLCall exprStr file line raised pending).emitted
        = [glErrorMsg e file exprStr line] ∧
      exprStr <:+: glErrorMsg e file exprStr line ∧
      file <:+: glErrorMsg e file exprStr line ∧
      (Nat.repr line).toList <:+: glErrorMsg e file exprStr line) := by
  have hclear : GLClearError pending = [] := GLClearError_drains pending hp
  refine ⟨hclear, ?_, ?_⟩
  · intro h
    simp [GLCall, hclear, h, GLLogCall]
  · intro e es h
    have he : e ≠ GL_NO_ERROR := hr e (by rw [h]; exact List.mem_cons_self e es)
    refine ⟨?_, ?_, ?_, ?_, ?_⟩
    · simp [GLCall, hclear, h, GLLogCall, he]
    · simp [GLCall, hclear, h, GLLogCall, he]
    · exact ⟨"[OpenGL Error] (".toList ++ (Nat.repr e).toList ++ ") in file ".toList
        ++ file ++ " on function ".toList,
        " at line ".toList ++ (Nat.repr line).toList,
        by simp [glErrorMsg, List.append_assoc]⟩
    · exact ⟨"[OpenGL Error] (".toList ++ (Nat.repr e).toList ++ ") in file ".toList,
        " on function ".toList ++ exprStr ++ " at line ".toList ++ (Nat.repr line).toList,
        by simp [glErrorMsg, List.append_assoc]⟩
    · exact ⟨"[OpenGL Error] (".toList ++ (Nat.repr e).toList ++ ") in file ".toList
        ++ file ++ " on function ".toList ++ exprStr ++ " at line ".toList, [],
        by simp [glErrorMsg, List.append_assoc]⟩

/-- Witness for claim C6 at a concrete input: a draw call that raises flag
1282 (`GL_INVALID_OPERATION`) while flag 1280 was already pending gets the
stale flag drained, prints one diagnostic line and traps. -/
theorem c6_witness :
    GLClearError [1280] = [] ∧
    (GLCall "glDrawElements".toList "Application.cpp".toList 206 [1282] [1280]).trapped
      = true ∧
    "glDrawElements".toList
      <:+: glErrorMsg 1282 ("Application.cpp".toList) ("glDrawElements".toList) 206 := by
  have h := c6_glcall_discipline "glDrawElements".toList "Application.cpp".toList 206
    [1282] [1280] (by decide) (by decide)
  exact ⟨h.1, (h.2.2 1282 [] rfl).1, (h.2.2 1282 [] rfl).2.2.1⟩

end Cherno

namespace Cherno

/-- The outcomes of the three initialization steps `main` performs before
entering the render loop: `glfwInit`, `glfwCreateWindow`, `glewInit`. -/
structure InitEnv where
  glfwInitOk : Bool
  windowOk : Bool
  glewOk : Bool
deriving DecidableEq, Repr

/-- What `main` produces: the process exit code and the lines written to
`std::cerr`. -/
structure MainOut where
  exitCode : Int
  stderrLines : List (List Char)
deriving DecidableEq, Repr

/-- The message printed when `glewInit` fails (Application.cpp line 127). -/
def glewErrMsg : List Char := "[ERROR] Error initializing GLEW".toList

/-- The initialization and exit behavior of `main` (Application.cpp lines
101-131 and 215-219): `glfwInit` failure returns -1 silently;
`glfwCreateWindow` failure terminates GLFW and returns -1 silently;
`glewInit` failure prints to `std::cerr` and returns -1; otherwise the
render loop runs until the window-close signal and `main` returns 0. -/
def mainRun (env : InitEnv) : MainOut :=
  if !env.glfwInitOk then ⟨-1, []⟩
  else if !env.windowOk then ⟨-1, []⟩
  else if !env.glewOk then ⟨-1, [glewErrMsg]⟩
  else ⟨0, []⟩

/-- Claim C9 counterexample: when `glfwInit` fails, the process exits with
nonzero status but NOTHING is reported to stderr, contradicting the claim
that init failures are reported to stderr before exit.  The same holds for
window-creation failure. -/
theorem c9_counterexample :
    (mainRun ⟨false, true, true⟩).exitCode ≠ 0 ∧
    (mainRun ⟨false, true, true⟩).stderrLines = [] ∧
    (mainRun ⟨true, false, true⟩).exitCode ≠ 0 ∧
    (mainRun ⟨true, false, true⟩).stderrLines = [] := by
  decide

/-- Claim C9 (amended): the exit code is 0 exactly when all three init
steps succeed and the loop exits on window close; any init failure exits
with -1 (nonzero); but only the extension-loader (`glewInit`) failure is
reported to stderr before exit, while window/context failures exit
silently. -/
theorem c9_exit_codes (env : InitEnv) :
    ((mainRun env).exitCode = 0 ↔
      (env.glfwInitOk = true ∧ env.windowOk = true ∧ env.glewOk = true)) ∧
    ((env.glfwInitOk = false ∨ env.windowOk = false ∨ env.glewOk = false) →
      (mainRun env).exitCode = -1) ∧
    ((mainRun env).stderrLines ≠ [] ↔
      (env.glfwInitOk = true ∧ env.windowOk = true ∧ env.glewOk = false)) ∧
    ((mainRun env).stderrLines ≠ [] → (mainRun env).stderrLines = [glewErrMsg]) := by
  obtain ⟨a, b, c⟩ := env
  cases a <;> cases b <;> cases c <;> simp [mainRun, glewErrMsg]

/-- Witness for the amended claim C9 at a concrete input: with successful
window/context init but failing GLEW init, the exit code is -1 and the
GLEW message is on stderr. -/
theorem c9_witness :
    (mainRun ⟨true, true, false⟩).exitCode = -1 ∧
    (mainRun ⟨true, true, false⟩).stderrLines = [glewErrMsg] := by
  have h := c9_exit_codes ⟨true, true, false⟩
  exact ⟨h.2.1 (Or.inr (Or.inr rfl)), h.2.2.2 (by decide)⟩

end Cherno

namespace Cherno

/-- A content line: one the splitter appends to a buffer (it does not
contain the marker token, so it takes the `else` branch at Application.cpp
line 52). -/
def isContentLine (l : List Char) : Bool := !(isMarkerLine l)

/-- The content lines of a segment of the file, in order. -/
def contentOf (c : List (List Char)) : List (List Char) :=
  c.filter isContentLine

/-- A recognized marker line: a directive line that actually switches the
section (it selects either the vertex or the fragment section). -/
def isRecMarker (l : List Char) : Bool := isVertexMarker l || isFragmentMarker l

/-- Whether the section opened by the first line satisfying `p` contains at
least one content line: drop lines up to that marker, then look at the
lines strictly after it, up to but excluding the next recognized marker
line (or end of file), and test whether any of them is a content line. -/
def hasContentAfter (p : List Char → Bool) (lines : List (List Char)) : Bool :=
  ((((lines.dropWhile (fun l => !(p l))).drop 1).takeWhile
      (fun l => !(isRecMarker l))).any isContentLine)

/-- A directive line that selects no section (it contains the marker token
but neither stage keyword) leaves the loop state untouched. -/
theorem processLine_drop (st : ParseState) (l : List Char) (h1 : shaderTok <:+: l)
    (h2 : ¬ vertexTok <:+: l) (h3 : ¬ fragmentTok <:+: l) :
    processLine st l = st := by
  simp [processLine, h1, h2, h3]

/-- From a directive line that is neither kind of recognized marker, the
two keyword tests both fail. -/
theorem nonrec_marker_drop (l : List Char) (hm : shaderTok <:+: l)
    (hv : isVertexMarker l = false) (hf : isFragmentMarker l = false) :
    ¬ vertexTok <:+: l ∧ ¬ fragmentTok <:+: l := by
  simp [isVertexMarker, isMarkerLine, hm] at hv
  simp [isFragmentMarker, isMarkerLine, hm, hv] at hf
  exact ⟨hv, hf⟩

/-- A vertex marker line is not a fragment marker line (the `vertex` test
wins at Application.cpp line 47). -/
theorem vertexMarker_not_fragment {l : List Char} (h : isVertexMarker l = true) :
    isFragmentMarker l = false := by
  simp only [isVertexMarker, Bool.and_eq_true] at h
  simp [isFragmentMarker, h.1, h.2]

/-- Content lines never contain the marker token. -/
theorem contentOf_no_tok (c : List (List Char)) :
    ∀ l ∈ contentOf c, ¬ shaderTok <:+: l := by
  intro l hl
  rw [contentOf, List.mem_filter] at hl
  simpa [isContentLine, isMarkerLine] using hl.2

/-- A segment has a content line exactly when its content-line sublist is
non-empty. -/
theorem any_content_iff (c : List (List Char)) :
    c.any isContentLine = true ↔ contentOf c ≠ [] := by
  rw [contentOf, Ne, List.filter_eq_nil_iff, List.any_eq_true]
  constructor
  · rintro ⟨x, hx, hpx⟩ hall
    exact hall x hx hpx
  · intro h
    by_contra hne
    push_neg at hne
    exact h (fun a ha hpa => hne a ha hpa)

end Cherno

namespace Cherno

/-- Writing a content line in the NONE state: the store goes to the
out-of-bounds slot `ss[-1]` and leaves both real buffers unchanged. -/
theorem processLine_content_none (st : ParseState) (l : List Char)
    (hl : ¬ shaderTok <:+: l) (ht : st.type = ShaderType.NONE) :
    processLine st l = { st with oobWrites := st.oobWrites ++ [((-1 : Int), l)] } := by
  simp [processLine, hl, ht, ShaderType.toIdx]

/-- Folding a segment with no recognized marker from a VERTEX state:
content lines accumulate in `ss[0]`, unrecognized directive lines are
dropped, and nothing else changes. -/
theorem foldl_seg_vertex (c : List (List Char))
    (hc : ∀ l ∈ c, isVertexMarker l = false ∧ isFragmentMarker l = false)
    (s0 s1 : List Char) (w : List (Int × List Char)) :
    c.foldl processLine ⟨ShaderType.VERTEX, s0, s1, w⟩ =
      ⟨ShaderType.VERTEX, s0 ++ emit (contentOf c), s1, w⟩ := by
  induction c generalizing s0 with
  | nil => simp [contentOf, emit]
  | cons l c ih =>
    obtain ⟨hv, hf⟩ := hc l (List.mem_cons_self l c)
    have hr : ∀ x ∈ c, isVertexMarker x = false ∧ isFragmentMarker x = false :=
      fun x hx => hc x (List.mem_cons_of_mem l hx)
    by_cases hm : shaderTok <:+: l
    · obtain ⟨h2, h3⟩ := nonrec_marker_drop l hm hv hf
      rw [List.foldl_cons, processLine_drop _ _ hm h2 h3, ih hr]
      have hco : contentOf (l :: c) = contentOf c := by
        simp [contentOf, isContentLine, isMarkerLine, hm]
      rw [hco]
    · rw [List.foldl_cons,
        processLine_content_vertex ⟨ShaderType.VERTEX, s0, s1, w⟩ l hm rfl]
      rw [show ({ (⟨ShaderType.VERTEX, s0, s1, w⟩ : ParseState) with
          ss0 := s0 ++ l ++ endl } : ParseState)
          = ⟨ShaderType.VERTEX, s0 ++ l ++ endl, s1, w⟩ from rfl]
      rw [ih hr]
      have hco : contentOf (l :: c) = l :: contentOf c := by
        simp [contentOf, isContentLine, isMarkerLine, hm]
      rw [hco]
      simp [emit, List.append_assoc]

/-- Folding a segment with no recognized marker from a FRAGMENT state:
content lines accumulate in `ss[1]`. -/
theorem foldl_seg_fragment (c : List (List Char))
    (hc : ∀ l ∈ c, isVertexMarker l = false ∧ isFragmentMarker l = false)
    (s0 s1 : List Char) (w : List (Int × List Char)) :
    c.foldl processLine ⟨ShaderType.FRAGMENT, s0, s1, w⟩ =
      ⟨ShaderType.FRAGMENT, s0, s1 ++ emit (contentOf c), w⟩ := by
  induction c generalizing s1 with
  | nil => simp [contentOf, emit]
  | cons l c ih =>
    obtain ⟨hv, hf⟩ := hc l (List.mem_cons_self l c)
    have hr : ∀ x ∈ c, isVertexMarker x = false ∧ isFragmentMarker x = false :=
      fun x hx => hc x (List.mem_cons_of_mem l hx)
    by_cases hm : shaderTok <:+: l
    · obtain ⟨h2, h3⟩ := nonrec_marker_drop l hm hv hf
      rw [List.foldl_cons, processLine_drop _ _ hm h2 h3, ih hr]
      have hco : contentOf (l :: c) = contentOf c := by
        simp [contentOf, isContentLine, isMarkerLine, hm]
      rw [hco]
    · rw [List.foldl_cons,
        processLine_content_fragment ⟨ShaderType.FRAGMENT, s0, s1, w⟩ l hm rfl]
      rw [show ({ (⟨ShaderType.FRAGMENT, s0, s1, w⟩ : ParseState) with
          ss1 := s1 ++ l ++ endl } : ParseState)
          = ⟨ShaderType.FRAGMENT, s0, s1 ++ l ++ endl, w⟩ from rfl]
      rw [ih hr]
      have hco : contentOf (l :: c) = l :: contentOf c := by
        simp [contentOf, isContentLine, isMarkerLine, hm]
      rw [hco]
      simp [emit, List.append_assoc]

/-- Folding a segment with no recognized marker from the NONE state: both
real buffers stay empty of new text; content lines only add out-of-bounds
stores at index -1. -/
theorem foldl_seg_none (c : List (List Char))
    (hc : ∀ l ∈ c, isVertexMarker l = false ∧ isFragmentMarker l = false)
    (s0 s1 : List Char) (w : List (Int × List Char)) :
    c.foldl processLine ⟨ShaderType.NONE, s0, s1, w⟩ =
      ⟨ShaderType.NONE, s0, s1,
        w ++ (contentOf c).map (fun l => ((-1 : Int), l))⟩ := by
  induction c generalizing w with
  | nil => simp [contentOf]
  | cons l c ih =>
    obtain ⟨hv, hf⟩ := hc l (List.mem_cons_self l c)
    have hr : ∀ x ∈ c, isVertexMarker x = false ∧ isFragmentMarker x = false :=
      fun x hx => hc x (List.mem_cons_of_mem l hx)
    by_cases hm : shaderTok <:+: l
    · obtain ⟨h2, h3⟩ := nonrec_marker_drop l hm hv hf
      rw [List.foldl_cons, processLine_drop _ _ hm h2 h3, ih hr]
      have hco : contentOf (l :: c) = contentOf c := by
        simp [contentOf, isContentLine, isMarkerLine, hm]
      rw [hco]
    · rw [List.foldl_cons,
        processLine_content_none ⟨ShaderType.NONE, s0, s1, w⟩ l hm rfl]
      rw [show ({ (⟨ShaderType.NONE, s0, s1, w⟩ : ParseState) with
          oobWrites := w ++ [((-1 : Int), l)] } : ParseState)
          = ⟨ShaderType.NONE, s0, s1, w ++ [((-1 : Int), l)]⟩ from rfl]
      rw [ih hr]
      have hco : contentOf (l :: c) = l :: contentOf c := by
        simp [contentOf, isContentLine, isMarkerLine, hm]
      rw [hco]
      simp [List.append_assoc]

end Cherno

namespace Cherno

/-- A list whose `countP` is 1 splits around the unique element satisfying
the predicate. -/
theorem countP_eq_one_split {α : Type} (p : α → Bool) :
    ∀ l : List α, l.countP p = 1 →
      ∃ a x b, l = a ++ x :: b ∧ p x = true ∧
        (∀ y ∈ a, p y = false) ∧ (∀ y ∈ b, p y = false) := by
  intro l
  induction l with
  | nil => intro h; simp at h
  | cons x l ih =>
    intro h
    rw [List.countP_cons] at h
    by_cases hx : p x = true
    · rw [if_pos hx] at h
      have h0 : l.countP p = 0 := by omega
      have hb : ∀ y ∈ l, p y = false := by
        intro y hy
        simpa using List.countP_eq_zero.mp h0 y hy
      exact ⟨[], x, l, by simp, hx, by simp, hb⟩
    · rw [if_neg hx] at h
      obtain ⟨a, z, b, hl, hz, ha, hb⟩ := ih (by simpa using h)
      refine ⟨x :: a, z, b, by simp [hl], hz, ?_, hb⟩
      intro y hy
      rcases List.mem_cons.mp hy with rfl | hy
      · simpa using hx
      · exact ha y hy

/-- A file with exactly one vertex marker line and exactly one fragment
marker line splits into: a prefix segment, the first recognized marker, a
middle segment, the second recognized marker, and a tail segment, where the
two markers are of opposite kinds (in either order) and the three segments
contain no recognized marker line. -/
theorem marker_decomposition (lines : List (List Char))
    (h1 : lines.countP isVertexMarker = 1)
    (h2 : lines.countP isFragmentMarker = 1) :
    ∃ pre m1 mid m2 post,
      lines = pre ++ m1 :: (mid ++ m2 :: post) ∧
      ((isVertexMarker m1 = true ∧ isFragmentMarker m2 = true ∧
        isFragmentMarker m1 = false ∧ isVertexMarker m2 = false) ∨
       (isFragmentMarker m1 = true ∧ isVertexMarker m2 = true ∧
        isVertexMarker m1 = false ∧ isFragmentMarker m2 = false)) ∧
      (∀ l ∈ pre, isVertexMarker l = false ∧ isFragmentMarker l = false) ∧
      (∀ l ∈ mid, isVertexMarker l = false ∧ isFragmentMarker l = false) ∧
      (∀ l ∈ post, isVertexMarker l = false ∧ isFragmentMarker l = false) := by
  obtain ⟨a, vm, b, hl, hvm, ha, hb⟩ := countP_eq_one_split isVertexMarker lines h1
  have hvmf : isFragmentMarker vm = false := vertexMarker_not_fragment hvm
  rw [hl, List.countP_append, List.countP_cons, if_neg (by simp [hvmf])] at h2
  have hcases : (a.countP isFragmentMarker = 1 ∧ b.countP isFragmentMarker = 0) ∨
      (a.countP isFragmentMarker = 0 ∧ b.countP isFragmentMarker = 1) := by omega
  rcases hcases with ⟨hA, hB⟩ | ⟨hA, hB⟩
  · obtain ⟨a1, fm, a2, ha', hfm, ha1, ha2⟩ := countP_eq_one_split isFragmentMarker a hA
    have hbf : ∀ y ∈ b, isFragmentMarker y = false := by
      intro y hy
      simpa using List.countP_eq_zero.mp hB y hy
    refine ⟨a1, fm, a2, vm, b, ?_, ?_, ?_, ?_, ?_⟩
    · rw [hl, ha']
      simp
    · refine Or.inr ⟨hfm, hvm, ?_, hvmf⟩
      exact ha fm (by rw [ha']; simp)
    · intro l hla1
      have hmem : l ∈ a := by rw [ha']; simp [hla1]
      exact ⟨ha l hmem, ha1 l hla1⟩
    · intro l hla2
      have hmem : l ∈ a := by rw [ha']; simp [hla2]
      exact ⟨ha l hmem, ha2 l hla2⟩
    · intro l hlb
      exact ⟨hb l hlb, hbf l hlb⟩
  · obtain ⟨b1, fm, b2, hb', hfm, hb1, hb2⟩ := countP_eq_one_split isFragmentMarker b hB
    have haf : ∀ y ∈ a, isFragmentMarker y = false := by
      intro y hy
      simpa using List.countP_eq_zero.mp hA y hy
    refine ⟨a, vm, b1, fm, b2, ?_, ?_, ?_, ?_, ?_⟩
    · rw [hl, hb']
    · refine Or.inl ⟨hvm, hfm, hvmf, ?_⟩
      exact hb fm (by rw [hb']; simp)
    · intro l hla
      exact ⟨ha l hla, haf l hla⟩
    · intro l hlb1
      have hmem : l ∈ b := by rw [hb']; simp [hlb1]
      exact ⟨hb l hmem, hb1 l hlb1⟩
    · intro l hlb2
      have hmem : l ∈ b := by rw [hb']; simp [hlb2]
      exact ⟨hb l hmem, hb2 l hlb2⟩

end Cherno

namespace Cherno

theorem dropWhile_append_all {α : Type} (q : α → Bool) (a b : List α)
    (ha : ∀ y ∈ a, q y = true) : (a ++ b).dropWhile q = b.dropWhile q := by
  induction a with
  | nil => rfl
  | cons x a ih =>
    rw [List.cons_append, List.dropWhile_cons, if_pos (ha x (List.mem_cons_self x a))]
    exact ih (fun y hy => ha y (List.mem_cons_of_mem x hy))

theorem takeWhile_append_stop {α : Type} (r : α → Bool) (a : List α) (x : α) (b : List α)
    (ha : ∀ y ∈ a, r y = true) (hx : r x = false) :
    (a ++ x :: b).takeWhile r = a := by
  induction a with
  | nil => simp [List.takeWhile_cons, hx]
  | cons z a ih =>
    rw [List.cons_append, List.takeWhile_cons, if_pos (ha z (List.mem_cons_self z a)),
      ih (fun y hy => ha y (List.mem_cons_of_mem z hy))]

theorem takeWhile_all {α : Type} (r : α → Bool) (a : List α)
    (ha : ∀ y ∈ a, r y = true) : a.takeWhile r = a := by
  induction a with
  | nil => rfl
  | cons z a ih =>
    rw [List.takeWhile_cons, if_pos (ha z (List.mem_cons_self z a)),
      ih (fun y hy => ha y (List.mem_cons_of_mem z hy))]

/-- Evaluating `hasContentAfter` when the marker of interest is followed by
a segment closed off by another recognized marker. -/
theorem hasContentAfter_split (p : List Char → Bool) (a : List (List Char)) (x : List Char)
    (c : List (List Char)) (y : List Char) (d : List (List Char))
    (ha : ∀ l ∈ a, p l = false) (hx : p x = true)
    (hc : ∀ l ∈ c, isRecMarker l = false) (hy : isRecMarker y = true) :
    hasContentAfter p (a ++ x :: (c ++ y :: d)) = c.any isContentLine := by
  unfold hasContentAfter
  rw [dropWhile_append_all _ a _ (by intro l hl; simp [ha l hl])]
  rw [List.dropWhile_cons, if_neg (by simp [hx])]
  rw [List.drop_succ_cons, List.drop_zero]
  rw [takeWhile_append_stop _ c y d (by intro l hl; simp [hc l hl]) (by simp [hy])]

/-- Evaluating `hasContentAfter` when the marker of interest opens the last
section of the file. -/
theorem hasContentAfter_split_eof (p : List Char → Bool) (a : List (List Char))
    (x : List Char) (c : List (List Char))
    (ha : ∀ l ∈ a, p l = false) (hx : p x = true)
    (hc : ∀ l ∈ c, isRecMarker l = false) :
    hasContentAfter p (a ++ x :: c) = c.any isContentLine := by
  unfold hasContentAfter
  rw [dropWhile_append_all _ a _ (by intro l hl; simp [ha l hl])]
  rw [List.dropWhile_cons, if_neg (by simp [hx])]
  rw [List.drop_succ_cons, List.drop_zero]
  rw [takeWhile_all _ c (by intro l hl; simp [hc l hl])]

/-- No marker line occurs as a substring of the concatenation of the texts
emitted from two lists of content lines. -/
theorem marker_not_infix_emits (a b : List (List Char))
    (ha : ∀ l ∈ a, ¬ shaderTok <:+: l) (hb : ∀ l ∈ b, ¬ shaderTok <:+: l)
    (m : List Char) (hm : isMarkerLine m = true) : ¬ m <:+: (emit a ++ emit b) := by
  intro hinf
  have htok : shaderTok <:+: m := by
    simpa [isMarkerLine, decide_eq_true_eq] using hm
  have h3 : shaderTok <:+: emit a ++ emit b := htok.trans hinf
  rw [← emit_append] at h3
  have h4 : ∀ l ∈ a ++ b, ¬ shaderTok <:+: l := by
    intro x hx
    rcases List.mem_append.mp hx with hx | hx
    · exact ha x hx
    · exact hb x hx
  exact not_infix_emit (by decide) (by decide) h4 h3

/-- `ParseShader` on a decomposed file whose first recognized marker is the
vertex marker: the middle content feeds `VertexSource`, the tail content
feeds `FragmentSource`. -/
theorem parseShader_decomp_vm_first (pre mid post : List (List Char)) (m1 m2 : List Char)
    (hm1 : isVertexMarker m1 = true) (hm2 : isFragmentMarker m2 = true)
    (hpre : ∀ l ∈ pre, isVertexMarker l = false ∧ isFragmentMarker l = false)
    (hmid : ∀ l ∈ mid, isVertexMarker l = false ∧ isFragmentMarker l = false)
    (hpost : ∀ l ∈ post, isVertexMarker l = false ∧ isFragmentMarker l = false) :
    ParseShader (pre ++ m1 :: (mid ++ m2 :: post)) =
      ⟨emit (contentOf mid), emit (contentOf post)⟩ := by
  unfold ParseShader parseRun
  rw [show (initState : ParseState) = ⟨ShaderType.NONE, [], [], []⟩ from rfl]
  rw [List.foldl_append, foldl_seg_none pre hpre [] [] []]
  rw [List.foldl_cons, processLine_marker_vertex _ _ hm1]
  rw [show ({ (⟨ShaderType.NONE, [], [],
      [] ++ (contentOf pre).map (fun l => ((-1 : Int), l))⟩ : ParseState) with
      type := ShaderType.VERTEX } : ParseState)
      = ⟨ShaderType.VERTEX, [], [],
        [] ++ (contentOf pre).map (fun l => ((-1 : Int), l))⟩ from rfl]
  rw [List.foldl_append, foldl_seg_vertex mid hmid [] []
    ([] ++ (contentOf pre).map (fun l => ((-1 : Int), l)))]
  rw [List.foldl_cons, processLine_marker_fragment _ _ hm2]
  rw [show ({ (⟨ShaderType.VERTEX, [] ++ emit (contentOf mid), [],
      [] ++ (contentOf pre).map (fun l => ((-1 : Int), l))⟩ : ParseState) with
      type := ShaderType.FRAGMENT } : ParseState)
      = ⟨ShaderType.FRAGMENT, [] ++ emit (contentOf mid), [],
        [] ++ (contentOf pre).map (fun l => ((-1 : Int), l))⟩ from rfl]
  rw [foldl_seg_fragment post hpost ([] ++ emit (contentOf mid)) []
    ([] ++ (contentOf pre).map (fun l => ((-1 : Int), l)))]
  simp

/-- `ParseShader` on a decomposed file whose first recognized marker is the
fragment marker: the middle content feeds `FragmentSource`, the tail
content feeds `VertexSource`. -/
theorem parseShader_decomp_fm_first (pre mid post : List (List Char)) (m1 m2 : List Char)
    (hm1 : isFragmentMarker m1 = true) (hm2 : isVertexMarker m2 = true)
    (hpre : ∀ l ∈ pre, isVertexMarker l = false ∧ isFragmentMarker l = false)
    (hmid : ∀ l ∈ mid, isVertexMarker l = false ∧ isFragmentMarker l = false)
    (hpost : ∀ l ∈ post, isVertexMarker l = false ∧ isFragmentMarker l = false) :
    ParseShader (pre ++ m1 :: (mid ++ m2 :: post)) =
      ⟨emit (contentOf post), emit (contentOf mid)⟩ := by
  unfold ParseShader parseRun
  rw [show (initState : ParseState) = ⟨ShaderType.NONE, [], [], []⟩ from rfl]
  rw [List.foldl_append, foldl_seg_none pre hpre [] [] []]
  rw [List.foldl_cons, processLine_marker_fragment _ _ hm1]
  rw [show ({ (⟨ShaderType.NONE, [], [],
      [] ++ (contentOf pre).map (fun l => ((-1 : Int), l))⟩ : ParseState) with
      type := ShaderType.FRAGMENT } : ParseState)
      = ⟨ShaderType.FRAGMENT, [], [],
        [] ++ (contentOf pre).map (fun l => ((-1 : Int), l))⟩ from rfl]
  rw [List.foldl_append, foldl_seg_fragment mid hmid [] []
    ([] ++ (contentOf pre).map (fun l => ((-1 : Int), l)))]
  rw [List.foldl_cons, processLine_marker_vertex _ _ hm2]
  rw [show ({ (⟨ShaderType.FRAGMENT, [], [] ++ emit (contentOf mid),
      [] ++ (contentOf pre).map (fun l => ((-1 : Int), l))⟩ : ParseState) with
      type := ShaderType.VERTEX } : ParseState)
      = ⟨ShaderType.VERTEX, [], [] ++ emit (contentOf mid),
        [] ++ (contentOf pre).map (fun l => ((-1 : Int), l))⟩ from rfl]
  rw [foldl_seg_vertex post hpost [] ([] ++ emit (contentOf mid))
    ([] ++ (contentOf pre).map (fun l => ((-1 : Int), l)))]
  simp

end Cherno

namespace Cherno

/-- Claim C5 (amended): every input file with exactly one vertex marker
line and exactly one fragment marker line, in which each of the two markers
is followed (before the next recognized marker line or end of file) by at
least one content line, makes `ParseShader` return two non-empty strings,
and no marker line (no line containing `#shader`) occurs verbatim anywhere
in the concatenation of the two returned strings.  The markers may appear
in either order, content before the first marker is allowed, and
unrecognized directive lines may occur anywhere. -/
theorem c5_wellformed_nonempty_no_marker (lines : List (List Char))
    (h1 : lines.countP isVertexMarker = 1)
    (h2 : lines.countP isFragmentMarker = 1)
    (h3 : hasContentAfter isVertexMarker lines = true)
    (h4 : hasContentAfter isFragmentMarker lines = true) :
    (ParseShader lines).VertexSource ≠ [] ∧
    (ParseShader lines).FragmentSource ≠ [] ∧
    (∀ m : List Char, isMarkerLine m = true →
      ¬ m <:+: ((ParseShader lines).VertexSource ++
        (ParseShader lines).FragmentSource)) := by
  obtain ⟨pre, m1, mid, m2, post, hl, hord, hpre, hmid, hpost⟩ :=
    marker_decomposition lines h1 h2
  subst hl
  have hmidrec : ∀ l ∈ mid, isRecMarker l = false := by
    intro l hl2
    simp [isRecMarker, (hmid l hl2).1, (hmid l hl2).2]
  have hpostrec : ∀ l ∈ post, isRecMarker l = false := by
    intro l hl2
    simp [isRecMarker, (hpost l hl2).1, (hpost l hl2).2]
  rcases hord with ⟨hv1, hf2, hf1, hv2⟩ | ⟨hf1, hv2, hv1, hf2⟩
  · rw [hasContentAfter_split isVertexMarker pre m1 mid m2 post
      (fun l hl2 => (hpre l hl2).1) hv1 hmidrec (by simp [isRecMarker, hf2])] at h3
    have hmidne : contentOf mid ≠ [] := (any_content_iff mid).mp h3
    rw [show pre ++ m1 :: (mid ++ m2 :: post) = (pre ++ m1 :: mid) ++ m2 :: post
      from by simp] at h4
    have haf : ∀ l ∈ pre ++ m1 :: mid, isFragmentMarker l = false := by
      intro l hl2
      rcases List.mem_append.mp hl2 with hl2 | hl2
      · exact (hpre l hl2).2
      · rcases List.mem_cons.mp hl2 with rfl | hl2
        · exact hf1
        · exact (hmid l hl2).2
    rw [hasContentAfter_split_eof isFragmentMarker (pre ++ m1 :: mid) m2 post
      haf hf2 hpostrec] at h4
    have hpostne : contentOf post ≠ [] := (any_content_iff post).mp h4
    rw [parseShader_decomp_vm_first pre mid post m1 m2 hv1 hf2 hpre hmid hpost]
    exact ⟨emit_ne_nil hmidne, emit_ne_nil hpostne,
      fun m hm => marker_not_infix_emits (contentOf mid) (contentOf post)
        (contentOf_no_tok mid) (contentOf_no_tok post) m hm⟩
  · rw [hasContentAfter_split isFragmentMarker pre m1 mid m2 post
      (fun l hl2 => (hpre l hl2).2) hf1 hmidrec (by simp [isRecMarker, hv2])] at h4
    have hmidne : contentOf mid ≠ [] := (any_content_iff mid).mp h4
    rw [show pre ++ m1 :: (mid ++ m2 :: post) = (pre ++ m1 :: mid) ++ m2 :: post
      from by simp] at h3
    have hav : ∀ l ∈ pre ++ m1 :: mid, isVertexMarker l = false := by
      intro l hl2
      rcases List.mem_append.mp hl2 with hl2 | hl2
      · exact (hpre l hl2).1
      · rcases List.mem_cons.mp hl2 with rfl | hl2
        · exact hv1
        · exact (hmid l hl2).1
    rw [hasContentAfter_split_eof isVertexMarker (pre ++ m1 :: mid) m2 post
      hav hv2 hpostrec] at h3
    have hpostne : contentOf post ≠ [] := (any_content_iff post).mp h3
    rw [parseShader_decomp_fm_first pre mid post m1 m2 hf1 hv2 hpre hmid hpost]
    exact ⟨emit_ne_nil hpostne, emit_ne_nil hmidne,
      fun m hm => marker_not_infix_emits (contentOf post) (contentOf mid)
        (contentOf_no_tok post) (contentOf_no_tok mid) m hm⟩

/-- Witness for the amended claim C5 at a concrete input exercising the
general shape: content before the first marker, fragment marker first, and
an unrecognized `#shader geometry` directive among the lines.  The file
yields two non-empty sources and the fragment marker line does not occur in
the concatenated output. -/
theorem c5_witness :
    (ParseShader ["pre".toList, "#shader fragment".toList, "f;".toList,
      "#shader geometry".toList, "#shader vertex".toList, "v;".toList]).VertexSource
      ≠ [] ∧
    (ParseShader ["pre".toList, "#shader fragment".toList, "f;".toList,
      "#shader geometry".toList, "#shader vertex".toList, "v;".toList]).FragmentSource
      ≠ [] ∧
    ¬ ("#shader fragment".toList) <:+:
      ((ParseShader ["pre".toList, "#shader fragment".toList, "f;".toList,
        "#shader geometry".toList, "#shader vertex".toList, "v;".toList]).VertexSource ++
       (ParseShader ["pre".toList, "#shader fragment".toList, "f;".toList,
        "#shader geometry".toList, "#shader vertex".toList, "v;".toList]).FragmentSource) := by
  have h := c5_wellformed_nonempty_no_marker
    ["pre".toList, "#shader fragment".toList, "f;".toList, "#shader geometry".toList,
      "#shader vertex".toList, "v;".toList]
    (by decide) (by decide) (by decide) (by decide)
  exact ⟨h.1, h.2.1, h.2.2 ("#shader fragment".toList) (by decide)⟩

end Cherno
